import Mathlib

/-!
Verification of the touch-joystick core of the goth-d/atari-joystick
repository against its natural-language specification.

The authoritative implementation lives in src/src/util.ts and
src/src/index.ts; src/unnamed/part_000 .. part_003 are earlier draft
iterations of the same modules.  Angles are modelled as real numbers
(the idealisation of the JavaScript float arithmetic the code performs),
touch identifiers as integers, and timer instants as naturals.

For every angle function an exact rational companion is also defined,
measuring angles in units of pi (a coefficient q stands for the angle
q * pi).  Bridge lemmas prove that the real embedding at a rational
multiple of pi agrees with the rational companion, which makes concrete
evaluations decidable.
-/

open Real

/-- JavaScript remainder x % y as used in util.ts.  Both call sites apply
it with a nonnegative dividend (Math.abs(angle), or angle after the
nonnegative branch test) and the positive divisor 2 * Math.PI, where the
JavaScript truncated remainder coincides with x - y * floor (x / y). -/
noncomputable def jsRem (x y : ℝ) : ℝ := x - y * ↑⌊x / y⌋

/-- absoluteAngle from src/src/util.ts lines 49-56: branch on angle < 0,
negative branch returns (|angle| % 2pi) * -1 + 2pi, nonnegative branch
returns angle % 2pi. -/
noncomputable def absoluteAngle (angle : ℝ) : ℝ :=
  if angle < 0 then jsRem |angle| (π * 2) * (-1) + π * 2
  else jsRem angle (π * 2)

/-- CongruentDirection from src/src/util.ts lines 15-22.  The key field
defaults to the 1-based slice counter; the caller-supplied key arrays are
not exercised by any claim, so the key is modelled as that counter. -/
structure CongruentDirection where
  startAngle : ℝ
  endAngle : ℝ
  key : ℕ

/-- isAngleInSlice from src/src/util.ts lines 58-60: the membership test is
angle >= dir.startAngle && angle <= dir.endAngle, with no special case for
slices whose startAngle exceeds their endAngle. -/
noncomputable def isAngleInSlice (angle : ℝ) (dir : CongruentDirection) : Bool :=
  decide (angle ≥ dir.startAngle ∧ angle ≤ dir.endAngle)

/-- The loop of mapCongruentAngles (src/src/util.ts lines 35-40), recursing
on the remaining iteration count: each step records the slice
(curAngle, absoluteAngle (curAngle + w), i + 1) and continues from the
computed end angle. -/
noncomputable def mapCongruentAnglesAux (w : ℝ) : ℕ → ℕ → ℝ → List CongruentDirection
  | _, 0, _ => []
  | i, fuel + 1, curAngle =>
    let endAngle := absoluteAngle (curAngle + w)
    ⟨curAngle, endAngle, i + 1⟩ :: mapCongruentAnglesAux w (i + 1) fuel endAngle

/-- mapCongruentAngles from src/src/util.ts lines 30-42, with a numeric
slice count (the array overload differs only in keys and count).  The
count is an integer: the for loop executes slices.toNat times, so any
count below one produces the empty list with no error raised.  At the
call sites startAngle defaults to -0.5 * Math.PI; it is passed explicitly
here. -/
noncomputable def mapCongruentAngles (slices : ℤ) (startAngle : ℝ) : List CongruentDirection :=
  let congruentRadiansSlice := 2 * π / (slices : ℝ)
  mapCongruentAnglesAux congruentRadiansSlice 0 slices.toNat
    (absoluteAngle (startAngle - congruentRadiansSlice / 2))

/-- Modelled from the spec: no classification routine exists in the source
(isAngleInSlice is exported but never called), and spec section 4.2
describes classify as returning the slice whose membership test accepts
the angle, ties resolving to the earlier slice in walk order.  That is the
first match when walking the table in construction order. -/
noncomputable def classify (dirs : List CongruentDirection) (angle : ℝ) :
    Option CongruentDirection :=
  dirs.find? (isAngleInSlice angle)

/-- Rational companion of jsRem: exact remainder in units of pi. -/
def ratJsRem (x y : ℚ) : ℚ := x - y * ↑⌊x / y⌋

/-- Rational companion of absoluteAngle: the whole circle is 2 (units of
pi). -/
def ratAbsoluteAngle (q : ℚ) : ℚ :=
  if q < 0 then ratJsRem |q| 2 * (-1) + 2
  else ratJsRem q 2

/-- Rational companion of CongruentDirection, angles in units of pi. -/
structure RatDirection where
  startAngle : ℚ
  endAngle : ℚ
  key : ℕ
  deriving DecidableEq

/-- Rational companion of isAngleInSlice. -/
def ratIsAngleInSlice (angle : ℚ) (dir : RatDirection) : Bool :=
  decide (angle ≥ dir.startAngle ∧ angle ≤ dir.endAngle)

/-- Rational companion of mapCongruentAnglesAux. -/
def ratMapAux (w : ℚ) : ℕ → ℕ → ℚ → List RatDirection
  | _, 0, _ => []
  | i, fuel + 1, curAngle =>
    let endAngle := ratAbsoluteAngle (curAngle + w)
    ⟨curAngle, endAngle, i + 1⟩ :: ratMapAux w (i + 1) fuel endAngle

/-- Rational companion of mapCongruentAngles. -/
def ratMapCongruentAngles (slices : ℤ) (startAngle : ℚ) : List RatDirection :=
  let congruentRadiansSlice := 2 / (slices : ℚ)
  ratMapAux congruentRadiansSlice 0 slices.toNat
    (ratAbsoluteAngle (startAngle - congruentRadiansSlice / 2))

/-- Interprets a rational direction (units of pi) as the real direction it
stands for. -/
noncomputable def toDirection (d : RatDirection) : CongruentDirection :=
  ⟨(d.startAngle : ℝ) * π, (d.endAngle : ℝ) * π, d.key⟩

/-- JavaScript Math.atan2 (y first), written with Real.arctan following
the standard quadrant correction. -/
noncomputable def atan2 (y x : ℝ) : ℝ :=
  if 0 < x then Real.arctan (y / x)
  else if x < 0 ∧ 0 ≤ y then Real.arctan (y / x) + π
  else if x < 0 then Real.arctan (y / x) - π
  else if 0 < y then π / 2
  else if y < 0 then -(π / 2)
  else 0

/-- A point in page coordinates, as read through the pageX and pageY
accessors of PointPosition (src/src/index.ts).  The lazy parent-offset
machinery behind those accessors is not modelled: the claims supply page
coordinates directly. -/
structure PagePoint where
  pageX : ℝ
  pageY : ℝ

/-- getAxesDeltas from src/src/index.ts lines 258-264: the receiver is
self, the argument pointB, and the result is
(self.pageX - pointB.pageX, pointB.pageY - self.pageY). -/
def getAxesDeltas (self pointB : PagePoint) : ℝ × ℝ :=
  (self.pageX - pointB.pageX, pointB.pageY - self.pageY)

/-- getPointAngle from src/src/index.ts lines 270-275 (identical in
src/unnamed/part_003 lines 253-258): deltas are taken as
this.getAxesDeltas(point), then Math.atan2(deltaY, deltaX) is normalised
with absoluteAngle.  The receiver is the stored origin point, since the
argument may be a raw touch record. -/
noncomputable def getPointAngle (self point : PagePoint) : ℝ :=
  absoluteAngle (atan2 (getAxesDeltas self point).2 (getAxesDeltas self point).1)

/-- The draft variant of getPointAngle in src/unnamed/part_000 lines
178-183, which instead computes the deltas as point.getAxesDeltas(this),
reversing both axes relative to the version in src/src/index.ts. -/
noncomputable def getPointAngle000 (self point : PagePoint) : ℝ :=
  absoluteAngle (atan2 (getAxesDeltas point self).2 (getAxesDeltas point self).1)

/-- The three touch event kinds dispatched by TouchHandler. -/
inductive TouchEvType where
  | touchstart
  | touchmove
  | touchend
  deriving DecidableEq

/-- A touch event batch: the event kind, the identifiers of the changed
touches, and (consulted on touchend only) the identifiers of the touches
still active on the target.  Touch records carry coordinates in the DOM,
but handleEventsAndSync reads only the identifier and forwards the touch
to Joystick.sync, whose state assembly is a stub, so touches are modelled
by their identifiers. -/
structure TouchEv where
  type : TouchEvType
  changedTouches : List ℤ
  targetTouches : List ℤ
  deriving DecidableEq

/-- One call of Joystick.sync: the event-type string passed (touchmove for
handoff synthetic moves, regardless of the delivering event) and the
identifier of the touch forwarded. -/
structure Emission where
  eventType : TouchEvType
  identifier : ℤ
  deriving DecidableEq

/-- Modelled from the spec: Joystick.sync and State.update are stubs in
the source (stateCb is invoked with an empty object), so the isActive
field of the emitted StateSnapshot is derived from spec section 4.6: an
end-of-gesture trigger forces isActive = false, start and move triggers
set isActive = true. -/
def isActiveOf : TouchEvType → Bool
  | TouchEvType.touchend => false
  | _ => true

/-- The inner handoff loop of src/src/index.ts lines 376-382: every touch
still on the target becomes the tracked touch in turn and a synthetic
touchmove sync is emitted for it, with no comparison against the
previously tracked identifier.  Returns the final tracked identifier (the
last target touch wins) and the emissions in order. -/
def handoffInner : List ℤ → Option ℤ → Option ℤ × List Emission
  | [], tracking => (tracking, [])
  | t :: rest, _ =>
    let r := handoffInner rest (some t)
    (r.1, ⟨TouchEvType.touchmove, t⟩ :: r.2)

/-- The draft handoff loop of src/unnamed/part_000 lines 256-262: it skips
a target touch whose identifier equals the currently tracked one. -/
def handoffInner000 : List ℤ → Option ℤ → Option ℤ × List Emission
  | [], tracking => (tracking, [])
  | t :: rest, tracking =>
    if some t = tracking then handoffInner000 rest tracking
    else
      let r := handoffInner000 rest (some t)
      (r.1, ⟨TouchEvType.touchmove, t⟩ :: r.2)

/-- The touchend branch of handleEventsAndSync (src/src/index.ts lines
369-389).  The source reuses the outer loop index for the inner handoff
loop, so after a handoff the outer scan resumes at targetTouches.length
+ 1; because that jump can move the index backwards, the source loop can
revisit entries (and even diverge on inputs no browser produces), so the
recursion carries explicit fuel, one unit per outer iteration, enough for
every trace considered below. -/
def touchendLoop (changed target : List ℤ) : ℕ → ℕ → Option ℤ → Option ℤ × List Emission
  | 0, _, tracking => (tracking, [])
  | fuel + 1, i, tracking =>
    if h : i < changed.length then
      let t := changed.get ⟨i, h⟩
      if some t = tracking then
        if target.length ≠ 0 then
          let inner := handoffInner target tracking
          let r := touchendLoop changed target fuel (target.length + 1) inner.1
          (r.1, inner.2 ++ r.2)
        else
          let r := touchendLoop changed target fuel (i + 1) none
          (r.1, ⟨TouchEvType.touchend, t⟩ :: r.2)
      else touchendLoop changed target fuel (i + 1) tracking
    else (tracking, [])

/-- The touchend branch as implemented by the draft
JoystickTouchHandler.handleEventsAndSync in src/unnamed/part_000 lines
249-269, whose only difference is the identifier check in the handoff
loop. -/
def touchendLoop000 (changed target : List ℤ) : ℕ → ℕ → Option ℤ → Option ℤ × List Emission
  | 0, _, tracking => (tracking, [])
  | fuel + 1, i, tracking =>
    if h : i < changed.length then
      let t := changed.get ⟨i, h⟩
      if some t = tracking then
        if target.length ≠ 0 then
          let inner := handoffInner000 target tracking
          let r := touchendLoop000 changed target fuel (target.length + 1) inner.1
          (r.1, inner.2 ++ r.2)
        else
          let r := touchendLoop000 changed target fuel (i + 1) none
          (r.1, ⟨TouchEvType.touchend, t⟩ :: r.2)
      else touchendLoop000 changed target fuel (i + 1) tracking
    else (tracking, [])

/-- handleEventsAndSync from src/src/index.ts lines 348-390: touchstart
adopts the first changed touch when idle; touchmove emits one sync per
changed touch matching the tracked identifier; touchend runs the handoff
or gesture-end scan.  Returns the new tracked identifier and the sync
emissions in order. -/
def handleEventsAndSync (tracking : Option ℤ) (ev : TouchEv) : Option ℤ × List Emission :=
  match ev.type with
  | TouchEvType.touchstart =>
    match tracking, ev.changedTouches.head? with
    | none, some t => (some t, [⟨TouchEvType.touchstart, t⟩])
    | _, _ => (tracking, [])
  | TouchEvType.touchmove =>
    (tracking, ev.changedTouches.filterMap fun t =>
      if some t = tracking then some ⟨TouchEvType.touchmove, t⟩ else none)
  | TouchEvType.touchend =>
    touchendLoop ev.changedTouches ev.targetTouches (ev.changedTouches.length + 1) 0 tracking

/-- The touchend processing of the part_000 draft, for contrast with the
authoritative handler. -/
def handleTouchend000 (tracking : Option ℤ) (changed target : List ℤ) :
    Option ℤ × List Emission :=
  touchendLoop000 changed target (changed.length + 1) 0 tracking

/-- The throttle gate state of TouchHandler: the shouldComputeMove flag
and the pending setTimeout that will set it back to true.  The deadline is
the absolute instant at which the timeout fires (scheduling instant plus
the throttling interval). -/
structure ThrottleState where
  shouldComputeMove : Bool
  reopenAt : Option ℕ
  deriving DecidableEq

/-- One gated call of the moveHandler closure built in the TouchHandler
constructor (src/src/index.ts lines 318-327) at instant now: any pending
reopen timeout whose deadline has passed fires first (restoring
shouldComputeMove), then, if the flag is set, the computation runs, the
flag is cleared and a reopen timeout is scheduled for now + T.  The
returned Bool records whether the wrapped computation ran. -/
def throttleStep (T now : ℕ) (s : ThrottleState) : ThrottleState × Bool :=
  let fired : ThrottleState :=
    match s.reopenAt with
    | some r => if r ≤ now then ⟨true, none⟩ else s
    | none => s
  if fired.shouldComputeMove then (⟨false, some (now + T)⟩, true) else (fired, false)

/-- The mutable state of one TouchHandler: the tracked touch identifier
and the throttle gate. -/
structure HandlerState where
  trackingTouch : Option ℤ
  gate : ThrottleState
  deriving DecidableEq

/-- The moveHandler listener (src/src/index.ts lines 318-327): with a
numeric throttling interval the call is gated by throttleStep, otherwise
every call runs handleEventsAndSync directly. -/
def moveHandler (throttling : Option ℕ) (now : ℕ) (s : HandlerState) (ev : TouchEv) :
    HandlerState × List Emission :=
  match throttling with
  | some T =>
    let p := throttleStep T now s.gate
    if p.2 then
      let r := handleEventsAndSync s.trackingTouch ev
      (⟨r.1, p.1⟩, r.2)
    else (⟨s.trackingTouch, p.1⟩, [])
  | none =>
    let r := handleEventsAndSync s.trackingTouch ev
    (⟨r.1, s.gate⟩, r.2)

/-- The listener wiring of attachListeners (src/src/index.ts lines
392-397): touchstart and touchend are bound to the ungated
handleEventsAndSync, only touchmove goes through the gated moveHandler. -/
def dispatchEvent (throttling : Option ℕ) (now : ℕ) (s : HandlerState) (ev : TouchEv) :
    HandlerState × List Emission :=
  match ev.type with
  | TouchEvType.touchmove => moveHandler throttling now s ev
  | _ =>
    let r := handleEventsAndSync s.trackingTouch ev
    (⟨r.1, s.gate⟩, r.2)

/-- Delivers a list of timestamped events in order, concatenating the
emissions. -/
def runEvents (throttling : Option ℕ) : HandlerState → List (ℕ × TouchEv) →
    HandlerState × List Emission
  | s, [] => (s, [])
  | s, (t, ev) :: rest =>
    let r := dispatchEvent throttling t s ev
    let rs := runEvents throttling r.1 rest
    (rs.1, r.2 ++ rs.2)

/-- Runs the bare throttle gate over a list of call instants, returning
the final gate state and the instants at which the wrapped computation
actually ran. -/
def throttleRun (T : ℕ) : ThrottleState → List ℕ → ThrottleState × List ℕ
  | s, [] => (s, [])
  | s, t :: ts =>
    let p := throttleStep T t s
    let r := throttleRun T p.1 ts
    (r.1, (if p.2 then [t] else []) ++ r.2)

lemma pi_scale_le (x y : ℚ) : ((x : ℝ) * π ≤ (y : ℝ) * π) ↔ x ≤ y := by
  rw [mul_le_mul_right Real.pi_pos]
  exact Rat.cast_le

lemma jsRem_pi (x : ℚ) : jsRem ((x : ℝ) * π) (π * 2) = (ratJsRem x 2 : ℝ) * π := by
  unfold jsRem ratJsRem
  have hd : ((x : ℝ) * π) / (π * 2) = ((x / 2 : ℚ) : ℝ) := by
    rw [div_eq_iff (by positivity : (π * 2 : ℝ) ≠ 0)]
    push_cast
    ring
  rw [hd, Rat.floor_cast]
  push_cast
  ring

lemma absoluteAngle_pi (x : ℚ) : absoluteAngle ((x : ℝ) * π) = (ratAbsoluteAngle x : ℝ) * π := by
  unfold absoluteAngle ratAbsoluteAngle
  by_cases hx : x < 0
  · have hx2 : ((x : ℝ)) < 0 := by exact_mod_cast hx
    have hx3 : (x : ℝ) * π < 0 := mul_neg_of_neg_of_pos hx2 Real.pi_pos
    rw [if_pos hx3, if_pos hx]
    have habs : |(x : ℝ) * π| = ((|x| : ℚ) : ℝ) * π := by
      rw [abs_mul, abs_of_pos Real.pi_pos]
      push_cast
      ring
    rw [habs, jsRem_pi]
    push_cast
    ring
  · have hx2 : (0 : ℝ) ≤ (x : ℝ) := by exact_mod_cast not_lt.mp hx
    have hx3 : ¬((x : ℝ) * π < 0) := not_lt.mpr (mul_nonneg hx2 Real.pi_pos.le)
    rw [if_neg hx3, if_neg hx, jsRem_pi]

lemma isAngleInSlice_pi (a : ℚ) (d : RatDirection) :
    isAngleInSlice ((a : ℝ) * π) (toDirection d) = ratIsAngleInSlice a d := by
  unfold isAngleInSlice ratIsAngleInSlice toDirection
  rw [decide_eq_decide]
  simp only [ge_iff_le]
  exact and_congr (pi_scale_le d.startAngle a) (pi_scale_le a d.endAngle)

lemma mapCongruentAnglesAux_pi (w : ℚ) :
    ∀ (fuel i : ℕ) (cur : ℚ),
      mapCongruentAnglesAux ((w : ℝ) * π) i fuel ((cur : ℝ) * π) =
        (ratMapAux w i fuel cur).map toDirection := by
  intro fuel
  induction fuel with
  | zero => intro i cur; rfl
  | succ m ih =>
    intro i cur
    have hsum : (cur : ℝ) * π + (w : ℝ) * π = ((cur + w : ℚ) : ℝ) * π := by
      push_cast
      ring
    simp only [mapCongruentAnglesAux, ratMapAux, List.map_cons]
    rw [hsum, absoluteAngle_pi, ih]
    rfl

lemma mapCongruentAngles_pi (n : ℤ) (s : ℚ) :
    mapCongruentAngles n ((s : ℝ) * π) = (ratMapCongruentAngles n s).map toDirection := by
  simp only [mapCongruentAngles, ratMapCongruentAngles]
  have hw : 2 * π / (n : ℝ) = ((2 / (n : ℚ) : ℚ) : ℝ) * π := by
    push_cast
    ring
  have hs : (s : ℝ) * π - ((2 / (n : ℚ) : ℚ) : ℝ) * π / 2 =
      ((s - (2 / (n : ℚ)) / 2 : ℚ) : ℝ) * π := by
    push_cast
    ring
  rw [hw, hs, absoluteAngle_pi, mapCongruentAnglesAux_pi]

lemma ratTable40 :
    ratMapCongruentAngles 4 0 =
      [⟨7/4, 1/4, 1⟩, ⟨1/4, 3/4, 2⟩, ⟨3/4, 5/4, 3⟩, ⟨5/4, 7/4, 4⟩] := by
  simp only [ratMapCongruentAngles, Int.toNat_ofNat]
  norm_num [ratMapAux, ratAbsoluteAngle, ratJsRem, abs_of_neg, abs_of_nonneg]

lemma table40 :
    mapCongruentAngles 4 0 =
      [⟨7 * π / 4, π / 4, 1⟩, ⟨π / 4, 3 * π / 4, 2⟩,
       ⟨3 * π / 4, 5 * π / 4, 3⟩, ⟨5 * π / 4, 7 * π / 4, 4⟩] := by
  have h0 : (0 : ℝ) = ((0 : ℚ) : ℝ) * π := by
    push_cast
    ring
  rw [h0, mapCongruentAngles_pi, ratTable40]
  simp only [List.map_cons, List.map_nil, toDirection, List.cons.injEq, and_true,
    CongruentDirection.mk.injEq]
  push_cast
  norm_num
  refine ⟨⟨by ring, by ring⟩, ⟨by ring, by ring⟩, ⟨by ring, by ring⟩, by ring, by ring⟩

/-- C2: the claim says absoluteAngle maps every real angle into [0, 2pi)
with every exact multiple of 2pi, including -2pi, normalising to exactly
0.  The code disagrees at -2pi: the negative branch computes
(|angle| % 2pi) * -1 + 2pi with no special case, which yields exactly 2pi,
a value outside [0, 2pi) and different from absoluteAngle 0 = 0. -/
theorem absoluteAngle_neg_two_pi_eq_two_pi :
    absoluteAngle (-(π * 2)) = π * 2 ∧ π * 2 ≠ 0 := by
  constructor
  · have h : (-(π * 2) : ℝ) = ((-2 : ℚ) : ℝ) * π := by
      push_cast
      ring
    rw [h, absoluteAngle_pi]
    have h2 : ratAbsoluteAngle (-2) = 2 := by
      norm_num [ratAbsoluteAngle, ratJsRem, abs_of_neg]
    rw [h2]
    push_cast
    ring
  · positivity

/-- C6 counterexample: building the direction table with sliceCount = 0
does not fail at all; mapCongruentAngles runs its loop zero times and
returns the empty slice list, so construction succeeds with no
InvalidConfiguration error (no such error exists anywhere in the source). -/
theorem mapCongruentAngles_zero_returns_nil : mapCongruentAngles 0 0 = [] := by
  simp [mapCongruentAngles, mapCongruentAnglesAux]

/-- C6 amended: for every sliceCount below one and every start angle,
mapCongruentAngles silently returns the empty list: no error is raised,
and the resulting table has no slices, so nothing can ever be classified. -/
theorem mapCongruentAngles_nonpositive_eq_nil (n : ℤ) (h : n < 1) (s : ℝ) :
    mapCongruentAngles n s = [] := by
  have h0 : n.toNat = 0 := Int.toNat_of_nonpos (by omega)
  simp [mapCongruentAngles, h0, mapCongruentAnglesAux]

/-- C6 witness: the amended statement applied at sliceCount = -3. -/
theorem mapCongruentAngles_nonpositive_eq_nil_witness :
    mapCongruentAngles (-3) 1 = [] :=
  mapCongruentAngles_nonpositive_eq_nil (-3) (by decide) 1

/-- C1: the claim says every normalized angle lies in exactly one slice of
the table, with wrap-around slices tested as angle >= startAngle OR
angle <= endAngle.  The code has no wrap-around case: isAngleInSlice
always requires both bounds, so for sliceCount = 4, startAngle = 0 the
normalized angle 0 - which falls inside the wrap slice
(7pi/4, pi/4) - satisfies no slice of the table: every membership test
returns false, hence zero slices contain it rather than exactly one. -/
theorem mapCongruentAngles_zero_angle_unclassified :
    ((mapCongruentAngles 4 0).all fun d => ! isAngleInSlice 0 d) = true := by
  have h0 : (0 : ℝ) = ((0 : ℚ) : ℝ) * π := by
    push_cast
    ring
  rw [h0, mapCongruentAngles_pi, ratTable40]
  simp only [List.map_cons, List.map_nil, List.all_cons, List.all_nil, isAngleInSlice_pi]
  norm_num [ratIsAngleInSlice, decide_eq_false_iff_not]

lemma wrapSlice_eq : (⟨7 * π / 4, π / 4, 1⟩ : CongruentDirection) = toDirection ⟨7/4, 1/4, 1⟩ := by
  simp only [toDirection, CongruentDirection.mk.injEq]
  refine ⟨by push_cast; ring, by push_cast; ring, trivial⟩

lemma secondSlice_eq : (⟨π / 4, 3 * π / 4, 2⟩ : CongruentDirection) = toDirection ⟨1/4, 3/4, 2⟩ := by
  simp only [toDirection, CongruentDirection.mk.injEq]
  refine ⟨by push_cast; ring, by push_cast; ring, trivial⟩

lemma quarter_pi_eq : (π / 4 : ℝ) = ((1/4 : ℚ) : ℝ) * π := by
  push_cast
  ring

/-- C5: the claim says an angle on a shared boundary of two adjacent
slices satisfies the membership test of both slices and classifies into
the slice for which it is the endAngle.  With sliceCount = 4,
startAngle = 0 the boundary pi/4 is shared by the wrap slice
(7pi/4, pi/4), for which it is the endAngle, and the slice (pi/4, 3pi/4),
for which it is the startAngle.  Because isAngleInSlice has no wrap-around
case, the wrap slice rejects pi/4 (pi/4 is not greater than or equal to
7pi/4), so only one membership test accepts the boundary and first-match
classification returns the startAngle slice, not the endAngle slice the
claim requires. -/
theorem boundary_tie_break_at_wrap_slice :
    mapCongruentAngles 4 0 =
      [⟨7 * π / 4, π / 4, 1⟩, ⟨π / 4, 3 * π / 4, 2⟩,
       ⟨3 * π / 4, 5 * π / 4, 3⟩, ⟨5 * π / 4, 7 * π / 4, 4⟩] ∧
    isAngleInSlice (π / 4) ⟨7 * π / 4, π / 4, 1⟩ = false ∧
    isAngleInSlice (π / 4) ⟨π / 4, 3 * π / 4, 2⟩ = true ∧
    classify (mapCongruentAngles 4 0) (π / 4) = some ⟨π / 4, 3 * π / 4, 2⟩ := by
  have e1 : ratIsAngleInSlice (1/4) ⟨7/4, 1/4, 1⟩ = false := by
    norm_num [ratIsAngleInSlice, decide_eq_false_iff_not]
  have e2 : ratIsAngleInSlice (1/4) ⟨1/4, 3/4, 2⟩ = true := by
    norm_num [ratIsAngleInSlice]
  refine ⟨table40, ?_, ?_, ?_⟩
  · rw [wrapSlice_eq, quarter_pi_eq, isAngleInSlice_pi, e1]
  · rw [secondSlice_eq, quarter_pi_eq, isAngleInSlice_pi, e2]
  · have h0 : (0 : ℝ) = ((0 : ℚ) : ℝ) * π := by
      push_cast
      ring
    rw [secondSlice_eq, quarter_pi_eq, h0, mapCongruentAngles_pi, ratTable40]
    unfold classify
    simp only [List.map_cons, List.map_nil]
    rw [List.find?_cons_of_neg _ (by rw [isAngleInSlice_pi, e1]; simp),
      List.find?_cons_of_pos _ (by rw [isAngleInSlice_pi, e2])]

/-- C8: the claim says the angle of a touch point relative to the origin
is computed from the deltas (point.x - origin.x, origin.y - point.y), so
origin (100, 100) and point (150, 50) give atan2 50 50 = pi/4.  The
getPointAngle of src/src/index.ts takes the deltas from the origin
receiver instead, producing (origin.x - point.x, point.y - origin.y) =
(-50, -50), whose atan2 is -3pi/4, normalised to 5pi/4 - the opposite
direction - and 5pi/4 differs from the pi/4 the claim requires. -/
theorem getPointAngle_reversed_deltas :
    getPointAngle ⟨100, 100⟩ ⟨150, 50⟩ = 5 * π / 4 ∧ 5 * π / 4 ≠ π / 4 := by
  constructor
  · show absoluteAngle (atan2 ((50 : ℝ) - 100) ((100 : ℝ) - 150)) = 5 * π / 4
    norm_num
    have hat : atan2 (-50 : ℝ) (-50) = Real.arctan 1 - π := by
      unfold atan2
      rw [if_neg (by norm_num), if_neg (by norm_num), if_pos (by norm_num)]
      norm_num
    rw [hat, Real.arctan_one]
    have h34 : (π / 4 - π : ℝ) = ((-3/4 : ℚ) : ℝ) * π := by
      push_cast
      ring
    rw [h34, absoluteAngle_pi]
    have hval : ratAbsoluteAngle (-3/4) = 5/4 := by
      norm_num [ratAbsoluteAngle, ratJsRem, abs_of_neg]
    rw [hval]
    push_cast
    ring
  · have hp := Real.pi_pos
    intro h
    linarith

/-- The part_000 draft computes the deltas from the moving point, and on
the same input yields pi/4, the value the specification demands. -/
theorem getPointAngle000_matches_spec_value :
    getPointAngle000 ⟨100, 100⟩ ⟨150, 50⟩ = π / 4 := by
  show absoluteAngle (atan2 ((100 : ℝ) - 50) ((150 : ℝ) - 100)) = π / 4
  norm_num
  have hat : atan2 (50 : ℝ) 50 = Real.arctan 1 := by
    unfold atan2
    rw [if_pos (by norm_num)]
    norm_num
  rw [hat, Real.arctan_one, quarter_pi_eq, absoluteAngle_pi]
  have hval : ratAbsoluteAngle (1/4) = 1/4 := by
    norm_num [ratAbsoluteAngle, ratJsRem]
  rw [hval]

/-- C3: the claim says a handoff synthetic move is emitted only for
remaining touches whose identifier differs from the previously tracked
one.  In src/src/index.ts the handoff loop has no such comparison: with
tracked identifier 1, a touchend for touch 1 whose target still lists
touch 1 re-emits a synthetic touchmove for identifier 1 and keeps
tracking it, exactly the re-emission the claim rules out. -/
theorem handoff_reemits_tracked_identifier :
    handleEventsAndSync (some 1) ⟨TouchEvType.touchend, [1], [1]⟩ =
      (some 1, [⟨TouchEvType.touchmove, 1⟩]) := by
  decide

/-- The part_000 draft, whose handoff loop skips the currently tracked
identifier, emits nothing on the same input. -/
theorem handleTouchend000_no_reemission :
    handleTouchend000 (some 1) [1] [1] = (some 1, []) := by
  decide

/-- C4: the sequence start(1), move(1), end(1, remaining [2]), delivered
to an idle session, emits exactly three computations; the third is a
synthetic touchmove (isActive = true under the spec mapping) and tracking
passes directly from touch 1 to touch 2, never through the idle state; a
final end(2, remaining empty) emits a fourth computation with
isActive = false and returns tracking to idle. -/
theorem touch_session_handoff_sequence :
    let s0 : HandlerState := ⟨none, ⟨true, none⟩⟩
    let r1 := dispatchEvent none 0 s0 ⟨TouchEvType.touchstart, [1], []⟩
    let r2 := dispatchEvent none 1 r1.1 ⟨TouchEvType.touchmove, [1], []⟩
    let r3 := dispatchEvent none 2 r2.1 ⟨TouchEvType.touchend, [1], [2]⟩
    let r4 := dispatchEvent none 3 r3.1 ⟨TouchEvType.touchend, [2], []⟩
    r1.2 = [⟨TouchEvType.touchstart, 1⟩] ∧ r1.1.trackingTouch = some 1 ∧
    r2.2 = [⟨TouchEvType.touchmove, 1⟩] ∧ r2.1.trackingTouch = some 1 ∧
    r3.2 = [⟨TouchEvType.touchmove, 2⟩] ∧ isActiveOf TouchEvType.touchmove = true ∧
    r3.1.trackingTouch = some 2 ∧
    r4.2 = [⟨TouchEvType.touchend, 2⟩] ∧ isActiveOf TouchEvType.touchend = false ∧
    r4.1.trackingTouch = none := by
  decide

/-- C7: with throttling interval 150, calls arriving at instants 0, 50 and
200 run the wrapped computation exactly twice, at 0 and 200; the call at
50 finds the gate closed and is dropped without being replayed, and after
the call at 200 the gate is scheduled to reopen at 350 = 200 + 150. -/
theorem throttle_gate_trace_two_executions :
    throttleRun 150 ⟨true, none⟩ [0, 50, 200] = (⟨false, some 350⟩, [0, 200]) := by
  decide

/-- C9: a touchend event is dispatched through the ungated
handleEventsAndSync listener, so whatever the throttle gate state (open,
closed, pending timer) and whatever the configured interval, an end event
for the tracked touch with no touches remaining immediately emits the
gesture-ended computation (isActive = false) and leaves the gate
untouched. -/
theorem touchend_bypasses_throttle_gate (thr : Option ℕ) (now : ℕ)
    (g : ThrottleState) (tr : ℤ) :
    dispatchEvent thr now ⟨some tr, g⟩ ⟨TouchEvType.touchend, [tr], []⟩ =
      (⟨none, g⟩, [⟨TouchEvType.touchend, tr⟩]) ∧
    isActiveOf TouchEvType.touchend = false := by
  refine ⟨?_, rfl⟩
  have h : handleEventsAndSync (some tr) ⟨TouchEvType.touchend, [tr], []⟩ =
      (none, [⟨TouchEvType.touchend, tr⟩]) := by
    show touchendLoop [tr] [] ([tr].length + 1) 0 (some tr) = _
    simp [touchendLoop]
  simp [dispatchEvent, h]

/-- C10: while the gate is open, a touchmove whose changed touches all
differ from the tracked identifier still runs through the gate: it emits
nothing, yet closes the gate until t0 + T, so a later move - matching or
not - arriving before that instant emits nothing either. -/
theorem nonmatching_move_consumes_throttle_window (T t0 t1 : ℕ) (tr : ℤ)
    (changed1 changed2 : List ℤ) (hno : ∀ c ∈ changed1, c ≠ tr) (ht : t1 < t0 + T) :
    (moveHandler (some T) t0 ⟨some tr, ⟨true, none⟩⟩
        ⟨TouchEvType.touchmove, changed1, []⟩).2 = [] ∧
    (moveHandler (some T) t0 ⟨some tr, ⟨true, none⟩⟩
        ⟨TouchEvType.touchmove, changed1, []⟩).1 =
      ⟨some tr, ⟨false, some (t0 + T)⟩⟩ ∧
    (moveHandler (some T) t1 ⟨some tr, ⟨false, some (t0 + T)⟩⟩
        ⟨TouchEvType.touchmove, changed2, []⟩).2 = [] := by
  have hemit : (handleEventsAndSync (some tr)
      ⟨TouchEvType.touchmove, changed1, []⟩).2 = [] := by
    show changed1.filterMap _ = []
    rw [List.filterMap_eq_nil_iff]
    intro c hc
    have hne : ¬(some c = some tr) := by
      intro heq
      exact hno c hc (Option.some.inj heq)
    rw [if_neg hne]
  have hgate1 : throttleStep T t0 ⟨true, none⟩ = (⟨false, some (t0 + T)⟩, true) := rfl
  have hgate2 : throttleStep T t1 ⟨false, some (t0 + T)⟩ =
      (⟨false, some (t0 + T)⟩, false) := by
    simp only [throttleStep]
    rw [if_neg (by omega : ¬(t0 + T ≤ t1))]
    rfl
  refine ⟨?_, ?_, ?_⟩
  · simp [moveHandler, hgate1, hemit]
  · simp [moveHandler, hgate1, handleEventsAndSync]
  · simp [moveHandler, hgate2]

/-- C10 witness: the theorem applied at T = 150, a non-matching move for
touch 99 at instant 0 while tracking touch 1, then a matching move for
touch 1 at instant 100. -/
theorem nonmatching_move_consumes_throttle_window_witness :
    (moveHandler (some 150) 100 ⟨some 1, ⟨false, some 150⟩⟩
        ⟨TouchEvType.touchmove, [1], []⟩).2 = [] :=
  (nonmatching_move_consumes_throttle_window 150 0 100 1 [99] [1]
    (by decide) (by decide)).2.2
